import Mathlib

/-!
Shallow embedding of the basket / checkout / inventory core of the
`ketlebell-training-hub` storefront (Django), covering:

* the product catalog (`kettlebell_shop/models.py`),
* the dual basket representation: per-visitor session basket and per-user
  durable basket rows (`basket/models.py`, `kettlebell_shop/views.py`),
* basket merge on login (`basket/signals.py`),
* checkout / order assembly (`checkout/views.py`),
* payment confirmation and the idempotent stock adjuster
  (`checkout/utils.py`, `checkout/views.py`, `checkout/webhooks.py`).

Python integers are embedded as `Int` (quantities, stock), decimal amounts
as `Int` (the code only copies and compares them, and multiplies by
integer quantities), and Django query-sets over tables as Lean lists in
row order (`.first()` = `List.find?`).  Fallible paths return explicit
result values.
-/

namespace KettlebellHub

/-- Weight unit of a product, `kg` or `lb` (`kettlebell_shop/models.py`,
`WEIGHT_UNIT_CHOICES`). -/
inductive WUnit
| kg
| lb
deriving DecidableEq, Repr

/-- Kettlebell product row (`kettlebell_shop/models.py`).  `weight` is the
numeric weight (integral in all presets), `stock` the stock count
(DB-non-negative, embedded as `Int` so that the clamping in the stock
adjuster is visible), `price_gbp` the price. -/
structure Kettlebell where
  id : Nat
  weight : Nat
  weight_unit : WUnit
  stock : Int
  price_gbp : Int
deriving DecidableEq, Repr

/-- Durable basket row for one owner (`basket/models.py`, `BasketItem`):
the generic foreign key is embedded as the product id `object_id`. -/
structure BasketItem where
  object_id : Nat
  quantity : Int
  price_snapshot : Int
deriving DecidableEq, Repr

/-- Session basket entry (`{"quantity": .., "price_gbp": ..}` values of the
session `basket` mapping). -/
structure SessEntry where
  quantity : Int
  price_gbp : Int
deriving DecidableEq, Repr

/-- The per-visitor session blob: the `basket` mapping keyed by the
normalized weight key, the `pending_order_number` marker and the
`basket_merged` flag. -/
structure Session where
  basket : List (Nat × SessEntry)
  pending_order_number : Option Nat
  basket_merged : Bool
deriving DecidableEq, Repr

/-- Contact fields of an order (`checkout/models.py`, `Order`). -/
structure ContactInfo where
  full_name : String
  email : String
  phone_number : String
  street_address1 : String
  street_address2 : String
  town_or_city : String
  postcode : String
  county : String
  country : String
deriving DecidableEq, Repr

/-- Order lifecycle status.  The `status` field and its constants are used
throughout `checkout/views.py` / `webhooks.py` / `tests.py`; the model
declaration itself is in repository migrations not under `src/`.  The
values follow the spec state machine PENDING → PAID → DISPATCHED /
FAILED. -/
inductive OrderStatus
| PENDING
| PAID
| DISPATCHED
| FAILED
deriving DecidableEq, Repr

/-- Order line item (`checkout/models.py`, `OrderLineItem`, plus the
nullable `product` foreign key added by migration
`0006_add_orderlineitem_product.py`).  The denormalized `product_name`
string is embedded by its parse result `name_weight_unit`: the
`(weight, unit)` pair that `_parse_weight_unit_from_name` in
`checkout/utils.py` extracts from it, or `none` when the name does not
parse. -/
structure OrderLineItem where
  product : Option Nat
  name_weight_unit : Option (Nat × WUnit)
  quantity : Int
  price : Int
deriving DecidableEq, Repr

/-- Order row (`checkout/models.py`, `Order`).  `original_basket` stores
the JSON dump of the session basket at creation; JSON-string equality of
two dumps of session dicts is embedded as equality of the association
lists.  The `paid`, `status` and `stock_adjusted` fields are referenced
by the `src/` views, webhook, utils and tests; their model declarations
live in migrations not under `src/` (e.g. `0005_add_stock_adjusted`). -/
structure Order where
  order_number : Nat
  profile : Option Nat
  contact : ContactInfo
  original_basket : List (Nat × SessEntry)
  total : Int
  status : OrderStatus
  paid : Bool
  stock_adjusted : Bool
  items : List OrderLineItem
deriving DecidableEq, Repr

/-- Global database state: the catalog, each user's durable basket rows
(keyed by user id), the orders table newest-first (so `.find?` matches
`order_by(-date).first()`), and the order-number generator. -/
structure Shop where
  catalog : List Kettlebell
  baskets : List (Nat × List BasketItem)
  orders : List Order
  next_order_number : Nat
deriving DecidableEq, Repr

/-! Association-list helpers used for the session dict and the per-user
basket table. -/

/-- Python `d.get(key)` on a dict embedded as an association list. -/
def lookupKey {α : Type} : List (Nat × α) → Nat → Option α
  | [], _ => none
  | (k, v) :: rest, key => if k = key then some v else lookupKey rest key

/-- Python `d[key] = v`: replace in place, or append when absent
(dict insertion order). -/
def setKey {α : Type} : List (Nat × α) → Nat → α → List (Nat × α)
  | [], key, v => [(key, v)]
  | (k, w) :: rest, key, v =>
      if k = key then (key, v) :: rest else (k, w) :: setKey rest key v

/-- Python `d.pop(key, None)` / `del d[key]`. -/
def popKey {α : Type} : List (Nat × α) → Nat → List (Nat × α)
  | [], _ => []
  | (k, w) :: rest, key => if k = key then rest else (k, w) :: popKey rest key

/-- Durable basket rows of a user (`Basket.objects.get_or_create(user=..)`
followed by reading `items`): absent baskets read as empty. -/
def getBasket (baskets : List (Nat × List BasketItem)) (u : Nat) :
    List BasketItem :=
  (lookupKey baskets u).getD []

/-- Overwrite a user's durable basket rows. -/
def setBasket (baskets : List (Nat × List BasketItem)) (u : Nat)
    (items : List BasketItem) : List (Nat × List BasketItem) :=
  setKey baskets u items

/-- Look up an order by order number
(`Order.objects.get(order_number=..)`). -/
def findOrder (orders : List Order) (n : Nat) : Option Order :=
  orders.find? (fun o => o.order_number = n)

/-- Persist an updated order row (`order.save()` on an existing row):
replace the row with the same order number. -/
def saveOrder (orders : List Order) (o : Order) : List Order :=
  orders.map (fun x => if x.order_number = o.order_number then o else x)

/-! The stock adjuster, `checkout/utils.py`,
`apply_order_stock_adjustment`. -/

/-- Resolve the product of a line item as `apply_order_stock_adjustment`
does: prefer the explicit foreign key (`filter(pk=li.product_id).first()`)
and fall back to parsing `product_name` for a weight and unit
(`filter(weight=weight, weight_unit=unit).first()`) when the key is
absent or dangling. -/
def resolveLineItem (catalog : List Kettlebell) (li : OrderLineItem) :
    Option Kettlebell :=
  match li.product.bind (fun pid => catalog.find? (fun k => k.id = pid)) with
  | some kb => some kb
  | none =>
      li.name_weight_unit.bind
        (fun wu =>
          catalog.find?
            (fun k => k.weight = wu.1 ∧ k.weight_unit = wu.2))

/-- Clamped decrement of one product's stock:
`kb.stock = max(0, int(kb.stock) - qty)` followed by `kb.save()`. -/
def adjustStock (catalog : List Kettlebell) (pid : Nat) (qty : Int) :
    List Kettlebell :=
  catalog.map
    (fun k => if k.id = pid then { k with stock := max 0 (k.stock - qty) } else k)

/-- Stock of the product row with the given primary key, as the adjuster
reads it (`filter(pk=..).first()`): `none` when no row matches. -/
def stockOf (catalog : List Kettlebell) (pid : Nat) : Option Int :=
  (catalog.find? (fun k => k.id = pid)).map (fun k => k.stock)

/-- Process one line item of the stock-adjustment loop: skip non-positive
quantities and unresolvable products, otherwise apply the clamped
decrement. -/
def applyLineItem (catalog : List Kettlebell) (li : OrderLineItem) :
    List Kettlebell :=
  if li.quantity ≤ 0 then catalog
  else
    match resolveLineItem catalog li with
    | none => catalog
    | some kb => adjustStock catalog kb.id li.quantity

/-- Stock adjustment for a whole order (`apply_order_stock_adjustment`):
return immediately when `order.stock_adjusted` is already set, otherwise
decrement per line item (clamped, unresolved lines skipped) and mark the
order adjusted.  Returns the updated catalog and order. -/
def apply_order_stock_adjustment (catalog : List Kettlebell) (order : Order) :
    List Kettlebell × Order :=
  if order.stock_adjusted then (catalog, order)
  else
    (order.items.foldl applyLineItem catalog,
     { order with stock_adjusted := true })

/-! The two payment-confirmation entry points. -/

/-- HTTP-level outcome of a view, as far as the claims observe it. -/
inductive HttpResult
| ok200
| notFound404
| denied403
deriving DecidableEq, Repr

/-- Client mark-paid endpoint (`checkout/views.py`, `mark_order_paid`):
look up the order by number (404 with an explicit `Order not found`
error when absent), check ownership (owner profile for authenticated
callers, the session's `pending_order_number` for anonymous ones, 403
otherwise), set `paid` and `status = PAID`, drop the matching session
pending marker, and clear the owner's durable basket rows. -/
def mark_order_paid (shop : Shop) (user : Option Nat) (sess : Session)
    (order_number : Nat) : HttpResult × Shop × Session :=
  match findOrder shop.orders order_number with
  | none => (.notFound404, shop, sess)
  | some order =>
    let authorized : Bool :=
      match user with
      | some u => decide (order.profile = some u)
      | none => decide (sess.pending_order_number = some order_number)
    if authorized then
      let order' := { order with paid := true, status := .PAID }
      let orders' := saveOrder shop.orders order'
      let sess' :=
        if sess.pending_order_number = some order_number then
          { sess with pending_order_number := none }
        else sess
      let baskets' :=
        match user with
        | some u =>
            if order.profile = some u then setBasket shop.baskets u []
            else shop.baskets
        | none => shop.baskets
      (.ok200, { shop with orders := orders', baskets := baskets' }, sess')
    else (.denied403, shop, sess)

/-- Parsed gateway webhook event: its `type` and the
`data.object.metadata.order_number` field (absent = `none`). -/
structure StripeEvent where
  kind : String
  order_number : Option Nat
deriving DecidableEq, Repr

/-- Gateway webhook endpoint (`checkout/webhooks.py`, `webhook`), after
signature verification / JSON parsing succeeded: on the two relevant
event kinds with an order number, mark the matching order paid and clear
the owner's durable basket; a missing order is logged and ignored.  The
response is 200 for all handled or ignored events. -/
def webhook (shop : Shop) (ev : StripeEvent) : HttpResult × Shop :=
  if ev.kind = "checkout.session.completed" ∨
     ev.kind = "payment_intent.succeeded" then
    match ev.order_number with
    | some n =>
      match findOrder shop.orders n with
      | some order =>
        let order' := { order with paid := true, status := .PAID }
        let orders' := saveOrder shop.orders order'
        let baskets' :=
          match order.profile with
          | some u => setBasket shop.baskets u []
          | none => shop.baskets
        (.ok200, { shop with orders := orders', baskets := baskets' })
      | none => (.ok200, shop)
    | none => (.ok200, shop)
  else (.ok200, shop)

/-- Modelled from the spec: the call site that routes the two
payment-confirmation entry points (`mark_order_paid` and `webhook`
above) into the stock adjuster is repository payment-flow code that is
not under `src/`; the `src/` tests exercise it
(`checkout/tests.py`, `CheckoutStockAdjustmentTests` and
`test_webhook_decrements_stock_and_is_idempotent` assert that both
endpoints decrement stock and set `stock_adjusted`).  Following spec
§4.4: look up the order by number (silent no-op when absent), apply the
idempotent stock adjustment (`apply_order_stock_adjustment`, which is
under `src/`), set `paid` and `status = PAID`, and clear the owner's
durable basket. -/
def confirm_payment (shop : Shop) (order_number : Nat) : Shop :=
  match findOrder shop.orders order_number with
  | none => shop
  | some order =>
    let res := apply_order_stock_adjustment shop.catalog order
    let order' := { res.2 with paid := true, status := .PAID }
    let baskets' :=
      match order.profile with
      | some u => setBasket shop.baskets u []
      | none => shop.baskets
    { shop with catalog := res.1, orders := saveOrder shop.orders order',
                baskets := baskets' }

/-! Add to basket (`kettlebell_shop/views.py`, `add_to_basket`). -/

/-- Session-reserved quantity of a product key, as `add_to_basket` reads
it: `int(basket.get(key, default).get(quantity, 0))` with an empty
default. -/
def sessionQty (sess : Session) (w : Nat) : Int :=
  ((lookupKey sess.basket w).map (fun e => e.quantity)).getD 0

/-- Durable-reserved quantity of a product for one owner:
`int(existing_item.quantity)` when the `BasketItem` row for the product
exists and 0 otherwise, as `add_to_basket` computes it from the locked
row. -/
def durableQty (shop : Shop) (u : Nat) (pid : Nat) : Int :=
  (((getBasket shop.baskets u).find? (fun it => it.object_id = pid)).map
    (fun it => it.quantity)).getD 0

/-- Outcome of an add-to-basket request, as reported in its JSON
response. -/
inductive AddResult
| ok
| quantityInvalid
| productNotFound
| insufficientStock
deriving DecidableEq, Repr

/-- Add-to-basket endpoint (`kettlebell_shop/views.py`, `add_to_basket`),
after JSON parsing: reject quantities below 1; for authenticated users,
look up the product (locked), sum the session quantity, durable quantity
and the request, run the stale-session recovery (drop a session entry
with no durable backing when bare stock can satisfy the request), reject
when the total still exceeds stock, otherwise write the reservation to
both the session entry and the durable row; for anonymous users the same
check with only the session quantity, writing the session entry. -/
def add_to_basket (shop : Shop) (user : Option Nat) (sess : Session)
    (weight : Nat) (unit : WUnit) (quantity : Int) :
    AddResult × Shop × Session :=
  if quantity < 1 then (.quantityInvalid, shop, sess)
  else
    let key := weight
    let existing_session_qty := sessionQty sess key
    match user with
    | some u =>
      match shop.catalog.find?
          (fun k => k.weight = weight ∧ k.weight_unit = unit) with
      | none => (.productNotFound, shop, sess)
      | some product =>
        let items := getBasket shop.baskets u
        let existing_item := items.find? (fun it => it.object_id = product.id)
        let existing_db_qty := durableQty shop u product.id
        let total_after := existing_session_qty + existing_db_qty + quantity
        let recovered :=
          if existing_session_qty + existing_db_qty + quantity > product.stock ∧
             existing_db_qty = 0 ∧ existing_session_qty > 0 ∧
             product.stock ≥ quantity then
            (popKey sess.basket key, (0 : Int), existing_db_qty + quantity)
          else (sess.basket, existing_session_qty, total_after)
        if recovered.2.2 > product.stock then
          (.insufficientStock, shop, { sess with basket := recovered.1 })
        else
          let new_session_qty := recovered.2.1 + quantity
          let sess' :=
            { sess with
              basket := setKey recovered.1 key
                ⟨new_session_qty, product.price_gbp⟩ }
          let items' :=
            match existing_item with
            | some _ =>
                items.map
                  (fun it =>
                    if it.object_id = product.id then
                      { it with quantity := it.quantity + quantity,
                                price_snapshot := product.price_gbp }
                    else it)
            | none => items ++ [⟨product.id, quantity, product.price_gbp⟩]
          (.ok, { shop with baskets := setBasket shop.baskets u items' }, sess')
    | none =>
      match shop.catalog.find?
          (fun k => k.weight = weight ∧ k.weight_unit = unit) with
      | none => (.productNotFound, shop, sess)
      | some product =>
        let existing_db_qty : Int := 0
        let total_after := existing_session_qty + existing_db_qty + quantity
        if total_after > product.stock then (.insufficientStock, shop, sess)
        else
          let existing :=
            (lookupKey sess.basket key).getD ⟨0, product.price_gbp⟩
          let entry : SessEntry :=
            ⟨existing.quantity + quantity, product.price_gbp⟩
          (.ok, shop, { sess with basket := setKey sess.basket key entry })

/-! Checkout (`checkout/views.py`, `checkout`, POST branch with a valid
form; form validation itself is framework code outside the core). -/

/-- Contact-field update applied when a pending order is reused
(`checkout/views.py`, the `if existing_order:` branch): every contact
field is copied from the submitted form except `country`, which the
reuse branch does not touch. -/
def updateContactFields (old form : ContactInfo) : ContactInfo :=
  { full_name := form.full_name
    email := form.email
    phone_number := form.phone_number
    street_address1 := form.street_address1
    street_address2 := form.street_address2
    town_or_city := form.town_or_city
    postcode := form.postcode
    county := form.county
    country := old.country }

/-- Idempotency lookup of `checkout`: for an authenticated user, the most
recent PENDING order of their profile, reused only when its stored
`original_basket` snapshot equals the dump of the current session
basket; for an anonymous user, the PENDING order named by the session's
`pending_order_number`, under the same snapshot comparison. -/
def checkoutFindExisting (shop : Shop) (user : Option Nat) (sess : Session) :
    Option Order :=
  match user with
  | some u =>
    match shop.orders.find?
        (fun o => o.profile = some u ∧ o.status = OrderStatus.PENDING) with
    | some o => if o.original_basket = sess.basket then some o else none
    | none => none
  | none =>
    match sess.pending_order_number with
    | some pn =>
      match shop.orders.find?
          (fun o => o.order_number = pn ∧ o.status = OrderStatus.PENDING) with
      | some o => if o.original_basket = sess.basket then some o else none
      | none => none
    | none => none

/-- Build the line items and total from an authenticated user's durable
basket rows (`checkout/views.py`, the authenticated branch of the atomic
block).  The view stores only the denormalized `str(it.content_object)`
name (no product foreign key); a dangling row yields the unparsable
name `str(None)`. -/
def buildAuthItems (catalog : List Kettlebell) (items : List BasketItem) :
    List OrderLineItem × Int :=
  items.foldl
    (fun acc it =>
      let kb := catalog.find? (fun k => k.id = it.object_id)
      let li : OrderLineItem :=
        { product := none,
          name_weight_unit := kb.map (fun k => (k.weight, k.weight_unit)),
          quantity := it.quantity,
          price := it.price_snapshot }
      (acc.1 ++ [li], acc.2 + it.price_snapshot * it.quantity))
    ([], 0)

/-- Build the line items and total from an anonymous session basket
(`checkout/views.py`, the session branch of the atomic block).  The name
is `str(kb)` when the weight resolves and the fallback
`"{weight} kg kettlebell"` otherwise; both parse back to
`(weight, kg)`. -/
def buildAnonItems (catalog : List Kettlebell)
    (sbasket : List (Nat × SessEntry)) : List OrderLineItem × Int :=
  sbasket.foldl
    (fun acc kv =>
      let kb := catalog.find?
        (fun k => k.weight = kv.1 ∧ k.weight_unit = WUnit.kg)
      let nameWU :=
        match kb with
        | some k => (k.weight, k.weight_unit)
        | none => (kv.1, WUnit.kg)
      let li : OrderLineItem :=
        { product := none, name_weight_unit := some nameWU,
          quantity := kv.2.quantity, price := kv.2.price_gbp }
      (acc.1 ++ [li], acc.2 + kv.2.price_gbp * kv.2.quantity))
    ([], 0)

/-- Checkout with a valid submitted form (`checkout/views.py`,
`checkout`, POST branch): reuse the matching pending order (updating its
contact fields) or start a fresh one; attach the profile for
authenticated users; snapshot the current session basket into
`original_basket`; inside the transaction delete the reused order's
previous line items and recreate the line items from the durable
(authenticated) or session (anonymous) basket together with the total;
finally remember the order number as the session's pending order.
Returns the new state and the order number. -/
def checkout (shop : Shop) (user : Option Nat) (sess : Session)
    (form : ContactInfo) : Shop × Session × Nat :=
  let existing := checkoutFindExisting shop user sess
  let base : Order :=
    match existing with
    | some o => { o with contact := updateContactFields o.contact form }
    | none =>
      { order_number := shop.next_order_number, profile := none,
        contact := form, original_basket := [], total := 0,
        status := .PENDING, paid := false, stock_adjusted := false,
        items := [] }
  let base :=
    match user with
    | some u => { base with profile := some u }
    | none => base
  let base := { base with original_basket := sess.basket }
  let built :=
    match user with
    | some u => buildAuthItems shop.catalog (getBasket shop.baskets u)
    | none => buildAnonItems shop.catalog sess.basket
  let order2 := { base with items := built.1, total := built.2 }
  let shop' :=
    match existing with
    | some _ => { shop with orders := saveOrder shop.orders order2 }
    | none =>
      { shop with orders := order2 :: shop.orders,
                  next_order_number := shop.next_order_number + 1 }
  (shop', { sess with pending_order_number := some order2.order_number },
   order2.order_number)

/-! Cancel (`checkout/views.py`, `cancel_order`). -/

/-- Outcome of a cancel request, as reported by its messages/redirect. -/
inductive CancelResult
| cancelled
| orderNotFound
| invalidStateTransition
| permissionDenied
deriving DecidableEq, Repr

/-- Cancel endpoint (`checkout/views.py`, `cancel_order`): only PENDING
orders may be cancelled; ownership is the owner profile for
authenticated users and the session's `pending_order_number` for
anonymous ones; on success the order becomes FAILED with `paid` false,
the session pending marker is dropped, and the held basket is released
(the owner's durable rows for authenticated users, the whole session
basket for anonymous ones). -/
def cancel_order (shop : Shop) (user : Option Nat) (sess : Session)
    (order_number : Nat) : CancelResult × Shop × Session :=
  match findOrder shop.orders order_number with
  | none => (.orderNotFound, shop, sess)
  | some order =>
    if order.status ≠ OrderStatus.PENDING then
      (.invalidStateTransition, shop, sess)
    else
      let authorized : Bool :=
        match user with
        | some u => decide (order.profile = some u)
        | none => decide (sess.pending_order_number = some order_number)
      if authorized then
        let order' := { order with status := .FAILED, paid := false }
        let orders' := saveOrder shop.orders order'
        let sess' :=
          if sess.pending_order_number = some order_number then
            { sess with pending_order_number := none }
          else sess
        match user with
        | some u =>
          let baskets' :=
            if order.profile = some u then setBasket shop.baskets u []
            else shop.baskets
          (.cancelled, { shop with orders := orders', baskets := baskets' },
           sess')
        | none =>
          (.cancelled, { shop with orders := orders' },
           { sess' with basket := [] })
      else (.permissionDenied, shop, sess)

/-! Merge on login (`basket/signals.py`, `merge_session_basket`). -/

/-- Merge one session entry into the durable rows
(`basket/signals.py`, loop body): resolve the product by bare weight
(`filter(weight=weight).first()`, no unit filter), silently skip
unresolvable entries and non-positive quantities, then upsert: add the
session quantity to an existing row (refreshing its price snapshot to
the current catalog price) or create a fresh row. -/
def mergeEntry (catalog : List Kettlebell) (acc : List BasketItem)
    (kv : Nat × SessEntry) : List BasketItem :=
  match catalog.find? (fun k => k.weight = kv.1) with
  | none => acc
  | some product =>
    if kv.2.quantity ≤ 0 then acc
    else
      match acc.find? (fun it => it.object_id = product.id) with
      | some _ =>
          acc.map
            (fun it =>
              if it.object_id = product.id then
                { it with quantity := it.quantity + kv.2.quantity,
                          price_snapshot := product.price_gbp }
              else it)
      | none => acc ++ [⟨product.id, kv.2.quantity, product.price_gbp⟩]

/-- Merge-on-login handler (`basket/signals.py`, `merge_session_basket`):
no-op on an empty session basket; otherwise merge every session entry
into the user's durable rows, clear the session basket and set the
one-shot `basket_merged` flag. -/
def merge_session_basket (shop : Shop) (u : Nat) (sess : Session) :
    Shop × Session :=
  if sess.basket = [] then (shop, sess)
  else
    let items := getBasket shop.baskets u
    let items' := sess.basket.foldl (mergeEntry shop.catalog) items
    ({ shop with baskets := setBasket shop.baskets u items' },
     { sess with basket := [], basket_merged := true })

/-! A single step relation over all embedded operations, for the global
stock invariant. -/

/-- One external request against the system, for one modelled visitor. -/
inductive Op
| opAdd (user : Option Nat) (weight : Nat) (unit : WUnit) (quantity : Int)
| opCheckout (user : Option Nat) (form : ContactInfo)
| opCancel (user : Option Nat) (n : Nat)
| opMarkPaid (user : Option Nat) (n : Nat)
| opWebhook (ev : StripeEvent)
| opMerge (u : Nat)
| opConfirm (n : Nat)

/-- Execute one operation, threading the database and session state. -/
def step (s : Shop × Session) : Op → Shop × Session
  | .opAdd user w unit q =>
      let r := add_to_basket s.1 user s.2 w unit q
      (r.2.1, r.2.2)
  | .opCheckout user form =>
      let r := checkout s.1 user s.2 form
      (r.1, r.2.1)
  | .opCancel user n =>
      let r := cancel_order s.1 user s.2 n
      (r.2.1, r.2.2)
  | .opMarkPaid user n =>
      let r := mark_order_paid s.1 user s.2 n
      (r.2.1, r.2.2)
  | .opWebhook ev => ((webhook s.1 ev).2, s.2)
  | .opMerge u => merge_session_basket s.1 u s.2
  | .opConfirm n => (confirm_payment s.1 n, s.2)

/-- Stock non-negativity of a catalog. -/
def stocksNonneg (catalog : List Kettlebell) : Prop :=
  ∀ k ∈ catalog, 0 ≤ k.stock

instance (catalog : List Kettlebell) : Decidable (stocksNonneg catalog) :=
  inferInstanceAs (Decidable (∀ k ∈ catalog, 0 ≤ k.stock))

/-! Concrete states used by the witness and counterexample theorems. -/

/-- A sample contact form. -/
def wContact : ContactInfo :=
  ⟨"Stock Tester", "stock@example.com", "", "1 Test", "", "City", "PC1", "",
   "UK"⟩

/-- A 24 kg kettlebell with stock 5 (as in the repository's stock tests). -/
def wKb : Kettlebell := ⟨1, 24, .kg, 5, 70⟩

/-- A pending order for user 7 with one line item of quantity 2 on the
24 kg product. -/
def wOrder : Order :=
  { order_number := 100, profile := some 7, contact := wContact,
    original_basket := [], total := 140, status := .PENDING,
    paid := false, stock_adjusted := false,
    items := [⟨none, some (24, .kg), 2, 70⟩] }

/-- Sample database: one product, no durable baskets, one pending order. -/
def wShop : Shop := ⟨[wKb], [], [wOrder], 200⟩

/-- Sample session remembering order 100 as pending. -/
def wSession : Session := ⟨[], some 100, false⟩

/-- A paid copy of the sample order, for the cancel claim. -/
def wOrderPaid : Order := { wOrder with status := .PAID, paid := true }

/-- Sample database whose only order is already paid. -/
def wShopPaid : Shop := ⟨[wKb], [], [wOrderPaid], 200⟩

/-- State with a 16 kg product of stock 1 fully reserved by the session:
`available = 1 - 0 - 1 = 0`. -/
def wShopFull : Shop := ⟨[⟨2, 16, .kg, 1, 20⟩], [], [], 200⟩

/-- Session holding the single unit of the 16 kg product. -/
def wSessionFull : Session := ⟨[(16, ⟨1, 20⟩)], none, false⟩

/-- State for the stale-session scenario: stock 5, no durable rows for
user 7, session claiming 3 units. -/
def wShopStale : Shop := ⟨[wKb], [], [], 200⟩

/-- Stale session: 3 units of the 24 kg product with no durable row. -/
def wSessionStale : Session := ⟨[(24, ⟨3, 70⟩)], none, false⟩

/-- Anonymous basket session of 2 units of a 16 kg product at price 20. -/
def wSessionBasket : Session := ⟨[(16, ⟨2, 20⟩)], none, false⟩

/-- Catalog/basket state for merge and checkout scenarios: a 16 kg
product with stock 5, user 9 holding one durable unit at an old price
snapshot. -/
def wShopMerge : Shop := ⟨[⟨3, 16, .kg, 5, 20⟩], [(9, [⟨3, 1, 15⟩])], [], 200⟩

/-- Catalog/basket state for the authenticated checkout scenario: user 9
holds a durable row of 2 units at price 20. -/
def wShopCheckout : Shop :=
  ⟨[⟨3, 16, .kg, 5, 20⟩], [(9, [⟨3, 2, 20⟩])], [], 200⟩

/-! Association-list and table lemmas. -/

theorem lookupKey_setKey_self {α : Type} (l : List (Nat × α)) (k : Nat)
    (v : α) : lookupKey (setKey l k v) k = some v := by
  induction l with
  | nil => simp [setKey, lookupKey]
  | cons h t ih =>
    obtain ⟨a, b⟩ := h
    by_cases hk : a = k
    · simp [setKey, hk, lookupKey]
    · simp [setKey, hk, lookupKey, ih]

theorem getBasket_setBasket_self (baskets : List (Nat × List BasketItem))
    (u : Nat) (items : List BasketItem) :
    getBasket (setBasket baskets u items) u = items := by
  simp [getBasket, setBasket, lookupKey_setKey_self]

theorem findOrder_saveOrder (orders : List Order) (o o' : Order) (n : Nat)
    (hfind : findOrder orders n = some o)
    (hnum : o'.order_number = o.order_number) :
    findOrder (saveOrder orders o') n = some o' := by
  have hn : o.order_number = n := by
    have := List.find?_some hfind
    simpa using this
  induction orders with
  | nil => simp [findOrder] at hfind
  | cons x t ih =>
    by_cases hx : x.order_number = n
    · have hxo : x = o := by
        simp [findOrder, List.find?, hx] at hfind
        exact hfind
      simp [saveOrder, findOrder, List.find?, hxo, hnum, hn]
    · have hfind' : findOrder t n = some o := by
        simpa [findOrder, List.find?, hx] using hfind
      have hxne : ¬ x.order_number = o'.order_number := by
        rw [hnum, hn]; exact hx
      have := ih hfind'
      simpa [saveOrder, findOrder, List.find?, hxne, hx] using this

theorem saveOrder_length (orders : List Order) (o : Order) :
    (saveOrder orders o).length = orders.length := by
  simp [saveOrder]

theorem find?_update_row (items : List BasketItem) (pid : Nat)
    (qty price : Int) (row : BasketItem)
    (h : items.find? (fun it => it.object_id = pid) = some row) :
    (items.map (fun it =>
        if it.object_id = pid then
          { it with quantity := it.quantity + qty, price_snapshot := price }
        else it)).find? (fun it => it.object_id = pid)
      = some { row with quantity := row.quantity + qty,
                        price_snapshot := price } := by
  induction items with
  | nil => simp at h
  | cons x t ih =>
    by_cases hx : x.object_id = pid
    · simp only [List.find?, hx, decide_True] at h
      simp only [Option.some.injEq] at h
      subst h
      simp [List.find?, hx]
    · simp only [List.find?, hx, decide_False] at h
      have := ih h
      simpa [List.find?, hx] using this

theorem find?_append_none {α : Type} (l1 l2 : List α) (p : α → Bool)
    (h : l1.find? p = none) : (l1 ++ l2).find? p = l2.find? p := by
  induction l1 with
  | nil => simp
  | cons x t ih =>
    by_cases hx : p x
    · simp [List.find?, hx] at h
    · simp only [List.find?, hx] at h
      simp only [List.cons_append, List.find?, hx]
      exact ih h

/-- C8: cancelling an order succeeds only when its status is PENDING, in
which case the order becomes FAILED with `paid` false and the owner's
durable basket rows are removed; cancelling an order in any other status
(e.g. PAID) fails with InvalidStateTransition and leaves the state
unchanged. -/
theorem C8_cancel_pending_only (shop : Shop) (u : Nat) (sess : Session)
    (n : Nat) (order : Order)
    (hfind : findOrder shop.orders n = some order) :
    (order.status ≠ OrderStatus.PENDING →
      cancel_order shop (some u) sess n
        = (CancelResult.invalidStateTransition, shop, sess))
    ∧ (order.status = OrderStatus.PENDING → order.profile = some u →
        (cancel_order shop (some u) sess n).1 = CancelResult.cancelled
        ∧ (∃ o', findOrder (cancel_order shop (some u) sess n).2.1.orders n
              = some o'
            ∧ o'.status = OrderStatus.FAILED ∧ o'.paid = false)
        ∧ getBasket (cancel_order shop (some u) sess n).2.1.baskets u = []) := by
  constructor
  · intro hst
    simp [cancel_order, hfind, hst]
  · intro hst hprof
    have hres :
        cancel_order shop (some u) sess n
          = (CancelResult.cancelled,
             { shop with
                 orders := saveOrder shop.orders
                   { order with status := .FAILED, paid := false },
                 baskets := setBasket shop.baskets u [] },
             if sess.pending_order_number = some n then
               { sess with pending_order_number := none }
             else sess) := by
      simp [cancel_order, hfind, hst, hprof]
    refine ⟨by rw [hres], ⟨{ order with status := .FAILED, paid := false },
      ?_, rfl, rfl⟩, ?_⟩
    · rw [hres]
      exact findOrder_saveOrder shop.orders order _ n hfind rfl
    · rw [hres]
      exact getBasket_setBasket_self shop.baskets u []

/-- C8 witness: cancelling the pending sample order 100 as its owner
succeeds and releases the basket; the paid variant is rejected. -/
theorem C8_cancel_pending_only_witness :
    (cancel_order wShop (some 7) wSession 100).1 = CancelResult.cancelled
    ∧ cancel_order wShopPaid (some 7) wSession 100
        = (CancelResult.invalidStateTransition, wShopPaid, wSession) :=
  ⟨((C8_cancel_pending_only wShop 7 wSession 100 wOrder rfl).2 rfl rfl).1,
   (C8_cancel_pending_only wShopPaid 7 wSession 100 wOrderPaid rfl).1
     (by decide)⟩

/-- C9 counterexample: a mark-paid request for an order number matching
no order does not receive a 2xx-equivalent response: `mark_order_paid`
answers 404 with an explicit `Order not found` error, revealing
non-existence. -/
theorem C9_counterexample :
    (mark_order_paid wShop (some 7) wSession 999).1 = HttpResult.notFound404
    ∧ HttpResult.notFound404 ≠ HttpResult.ok200 :=
  ⟨rfl, by decide⟩

/-- C9 amended: for a payment-confirmation request with an order number
matching no order, the webhook entry point fails silently (no-op, 200);
the direct mark-paid call also changes no state but responds 404 with an
explicit error instead of a 2xx-equivalent response. -/
theorem C9_amended (shop : Shop) (user : Option Nat) (sess : Session)
    (ev : StripeEvent) (n : Nat)
    (hnone : findOrder shop.orders n = none) :
    (ev.order_number = some n → webhook shop ev = (HttpResult.ok200, shop))
    ∧ mark_order_paid shop user sess n
        = (HttpResult.notFound404, shop, sess) := by
  constructor
  · intro hev
    unfold webhook
    rw [hev]
    split
    · simp [hnone]
    · rfl
  · simp [mark_order_paid, hnone]

/-- C9 amended, witness: order number 999 matches no order of the sample
state; the webhook no-ops with 200 and the mark-paid call answers 404
without changing state. -/
theorem C9_amended_witness :
    webhook wShop ⟨"checkout.session.completed", some 999⟩
        = (HttpResult.ok200, wShop)
    ∧ mark_order_paid wShop (some 7) wSession 999
        = (HttpResult.notFound404, wShop, wSession) :=
  ⟨(C9_amended wShop (some 7) wSession
      ⟨"checkout.session.completed", some 999⟩ 999 rfl).1 rfl,
   (C9_amended wShop (some 7) wSession
      ⟨"checkout.session.completed", some 999⟩ 999 rfl).2⟩

/-- C4 counterexample: with stock 1 and a session reservation of 1,
`available(P) = 1 - 0 - 1 = 0`, and the add-to-basket request for
exactly `available(P) = 0` units does not succeed: it is rejected as
QuantityInvalid by the `quantity < 1` validation. -/
theorem C4_counterexample :
    (add_to_basket wShopFull none wSessionFull 16 WUnit.kg 0).1
      = AddResult.quantityInvalid
    ∧ AddResult.quantityInvalid ≠ AddResult.ok :=
  ⟨rfl, by decide⟩

/-- C4 amended: when `available(P) = stock - durable - session ≥ 1` and
the owner's reservations are not stale (a positive durable quantity or
no session quantity), an authenticated add of exactly `available(P)`
units succeeds and `available(P) + 1` units fails with
InsufficientStock; the same boundary holds for the anonymous flow with
`available(P) = stock - session` when it is at least 1.  (When
`available(P) = 0` the request for 0 units is instead rejected as
QuantityInvalid, and a stale session entry can let `available(P) + 1`
succeed through the stale-session recovery.) -/
theorem C4_available_boundary (shop : Shop) (u : Nat) (sess : Session)
    (w : Nat) (unit : WUnit) (p : Kettlebell)
    (hp : shop.catalog.find?
      (fun k => k.weight = w ∧ k.weight_unit = unit) = some p)
    (havail : 1 ≤ p.stock - durableQty shop u p.id - sessionQty sess w)
    (hns : 0 < durableQty shop u p.id ∨ sessionQty sess w ≤ 0) :
    ((add_to_basket shop (some u) sess w unit
        (p.stock - durableQty shop u p.id - sessionQty sess w)).1
          = AddResult.ok
     ∧ (add_to_basket shop (some u) sess w unit
        (p.stock - durableQty shop u p.id - sessionQty sess w + 1)).1
          = AddResult.insufficientStock)
    ∧ (1 ≤ p.stock - sessionQty sess w →
       (add_to_basket shop none sess w unit (p.stock - sessionQty sess w)).1
          = AddResult.ok
       ∧ (add_to_basket shop none sess w unit
            (p.stock - sessionQty sess w + 1)).1
          = AddResult.insufficientStock) := by
  refine ⟨⟨?_, ?_⟩, fun hanon => ⟨?_, ?_⟩⟩
  · simp only [add_to_basket, if_neg (by omega :
      ¬ p.stock - durableQty shop u p.id - sessionQty sess w < 1), hp]
    rw [if_neg (by omega :
      ¬ (sessionQty sess w + durableQty shop u p.id
          + (p.stock - durableQty shop u p.id - sessionQty sess w) > p.stock
        ∧ durableQty shop u p.id = 0 ∧ sessionQty sess w > 0
        ∧ p.stock ≥ p.stock - durableQty shop u p.id - sessionQty sess w))]
    rw [if_neg (by omega :
      ¬ sessionQty sess w + durableQty shop u p.id
          + (p.stock - durableQty shop u p.id - sessionQty sess w) > p.stock)]
  · simp only [add_to_basket, if_neg (by omega :
      ¬ p.stock - durableQty shop u p.id - sessionQty sess w + 1 < 1), hp]
    rw [if_neg (by omega :
      ¬ (sessionQty sess w + durableQty shop u p.id
          + (p.stock - durableQty shop u p.id - sessionQty sess w + 1)
            > p.stock
        ∧ durableQty shop u p.id = 0 ∧ sessionQty sess w > 0
        ∧ p.stock ≥ p.stock - durableQty shop u p.id - sessionQty sess w + 1))]
    rw [if_pos (by omega :
      sessionQty sess w + durableQty shop u p.id
        + (p.stock - durableQty shop u p.id - sessionQty sess w + 1)
          > p.stock)]
  · simp only [add_to_basket,
      if_neg (by omega : ¬ p.stock - sessionQty sess w < 1), hp]
    rw [if_neg (by omega :
      ¬ sessionQty sess w + 0 + (p.stock - sessionQty sess w) > p.stock)]
  · simp only [add_to_basket,
      if_neg (by omega : ¬ p.stock - sessionQty sess w + 1 < 1), hp]
    rw [if_pos (by omega :
      sessionQty sess w + 0 + (p.stock - sessionQty sess w + 1) > p.stock)]

/-- C4 amended, witness: user 9 holds 2 durable units of the 16 kg
product with stock 5 and an empty session, so `available = 3`: adding 3
succeeds and 4 is rejected; anonymously `available = 5`: adding 5
succeeds and 6 is rejected. -/
theorem C4_available_boundary_witness :
    ((add_to_basket wShopCheckout (some 9) wSession 16 WUnit.kg 3).1
        = AddResult.ok
     ∧ (add_to_basket wShopCheckout (some 9) wSession 16 WUnit.kg 4).1
        = AddResult.insufficientStock)
    ∧ ((add_to_basket wShopCheckout none wSession 16 WUnit.kg 5).1
        = AddResult.ok
     ∧ (add_to_basket wShopCheckout none wSession 16 WUnit.kg 6).1
        = AddResult.insufficientStock) := by
  have h := C4_available_boundary wShopCheckout 9 wSession 16 WUnit.kg
    ⟨3, 16, WUnit.kg, 5, 20⟩ (by decide) (by decide) (Or.inl (by decide))
  exact ⟨⟨h.1.1, h.1.2⟩, ⟨(h.2 (by decide)).1, (h.2 (by decide)).2⟩⟩

/-- C6: when an authenticated add-to-basket request exceeds stock, it is
accepted exactly when the session entry is a stale reservation (no
durable quantity, positive session quantity) and the bare product stock
can satisfy the request, in which case the stale session entry is
discarded and replaced by the request; otherwise the request is rejected
with InsufficientStock. -/
theorem C6_stale_session_recovery (shop : Shop) (u : Nat) (sess : Session)
    (w : Nat) (unit : WUnit) (p : Kettlebell) (qty : Int)
    (hp : shop.catalog.find?
      (fun k => k.weight = w ∧ k.weight_unit = unit) = some p)
    (hq : 1 ≤ qty)
    (hexceed : p.stock < sessionQty sess w + durableQty shop u p.id + qty) :
    (durableQty shop u p.id = 0 ∧ 0 < sessionQty sess w ∧ qty ≤ p.stock →
      (add_to_basket shop (some u) sess w unit qty).1 = AddResult.ok
      ∧ (lookupKey (add_to_basket shop (some u) sess w unit qty).2.2.basket
          w).map (fun e => e.quantity) = some qty)
    ∧ (¬ (durableQty shop u p.id = 0 ∧ 0 < sessionQty sess w
          ∧ qty ≤ p.stock) →
      (add_to_basket shop (some u) sess w unit qty).1
        = AddResult.insufficientStock) := by
  have hnq : ¬ qty < 1 := by omega
  constructor
  · rintro ⟨hdq0, hsq0, hle⟩
    have hC1 : sessionQty sess w + durableQty shop u p.id + qty > p.stock ∧
        durableQty shop u p.id = 0 ∧ sessionQty sess w > 0 ∧
        p.stock ≥ qty :=
      ⟨hexceed, hdq0, hsq0, hle⟩
    simp only [add_to_basket, if_neg hnq, hp]
    rw [if_pos hC1]
    rw [if_neg (by simpa [hdq0] using hle :
      ¬ durableQty shop u p.id + qty > p.stock)]
    refine ⟨rfl, ?_⟩
    simp [lookupKey_setKey_self]
  · intro hnot
    have hC1 : ¬ (sessionQty sess w + durableQty shop u p.id + qty > p.stock
        ∧ durableQty shop u p.id = 0 ∧ sessionQty sess w > 0
        ∧ p.stock ≥ qty) := by
      intro hc
      exact hnot ⟨hc.2.1, hc.2.2.1, hc.2.2.2⟩
    simp only [add_to_basket, if_neg hnq, hp]
    rw [if_neg hC1]
    rw [if_pos (by omega :
      sessionQty sess w + durableQty shop u p.id + qty > p.stock)]

/-- C6 witness: stock 5, stale session claim of 3 with no durable row;
requesting 4 exceeds the naive total 7, yet is accepted with the stale
entry replaced by 4; requesting 6 is rejected. -/
theorem C6_stale_session_recovery_witness :
    ((add_to_basket wShopStale (some 7) wSessionStale 24 WUnit.kg 4).1
        = AddResult.ok
     ∧ (lookupKey (add_to_basket wShopStale (some 7) wSessionStale 24
          WUnit.kg 4).2.2.basket 24).map (fun e => e.quantity) = some 4)
    ∧ (add_to_basket wShopStale (some 7) wSessionStale 24 WUnit.kg 6).1
        = AddResult.insufficientStock :=
  ⟨(C6_stale_session_recovery wShopStale 7 wSessionStale 24 WUnit.kg wKb 4
      (by decide) (by decide) (by decide)).1 (by decide),
   (C6_stale_session_recovery wShopStale 7 wSessionStale 24 WUnit.kg wKb 6
      (by decide) (by decide) (by decide)).2 (by decide)⟩

/-- C10 counterexample: in the stale-session state (stock 5, session
claims 3, no durable row), adding 4 units succeeds but the session
entry's quantity afterwards is 4, not the previous 3 increased by the
requested 4: the two stores do not both increase by the request. -/
theorem C10_counterexample :
    (add_to_basket wShopStale (some 7) wSessionStale 24 WUnit.kg 4).1
      = AddResult.ok
    ∧ (lookupKey (add_to_basket wShopStale (some 7) wSessionStale 24
        WUnit.kg 4).2.2.basket 24).map (fun e => e.quantity) = some 4
    ∧ (4 : Int) ≠ 3 + 4 :=
  ⟨rfl, rfl, by decide⟩

/-- C10 amended: every successful authenticated add-to-basket writes the
reservation to both stores with both price snapshots set to the current
catalog price: the durable row's quantity increases by exactly the
requested quantity, and the session entry becomes its pre-check quantity
plus the request, where the pre-check quantity is the prior session
quantity except when the stale-session recovery discarded the entry, in
which case it is 0. -/
theorem C10_dual_write (shop : Shop) (u : Nat) (sess : Session)
    (w : Nat) (unit : WUnit) (p : Kettlebell) (qty : Int)
    (hp : shop.catalog.find?
      (fun k => k.weight = w ∧ k.weight_unit = unit) = some p)
    (hq : 1 ≤ qty)
    (hok : (add_to_basket shop (some u) sess w unit qty).1
      = AddResult.ok) :
    (lookupKey (add_to_basket shop (some u) sess w unit qty).2.2.basket w
      = some ⟨(if sessionQty sess w + durableQty shop u p.id + qty > p.stock
                ∧ durableQty shop u p.id = 0 ∧ sessionQty sess w > 0
                ∧ p.stock ≥ qty
               then 0 else sessionQty sess w) + qty, p.price_gbp⟩)
    ∧ (∃ row,
        (getBasket (add_to_basket shop (some u) sess w unit qty).2.1.baskets
            u).find? (fun it => it.object_id = p.id) = some row
        ∧ row.quantity = durableQty shop u p.id + qty
        ∧ row.price_snapshot = p.price_gbp) := by
  have hnq : ¬ qty < 1 := by omega
  by_cases hC1 : sessionQty sess w + durableQty shop u p.id + qty > p.stock
      ∧ durableQty shop u p.id = 0 ∧ sessionQty sess w > 0
      ∧ p.stock ≥ qty
  · have hdq0 : durableQty shop u p.id = 0 := hC1.2.1
    simp only [add_to_basket, if_neg hnq, hp]
    rw [if_pos hC1]
    rw [if_neg (show ¬ durableQty shop u p.id + qty > p.stock by omega)]
    constructor
    · rw [lookupKey_setKey_self, if_pos hC1]
    · rw [getBasket_setBasket_self]
      rcases hfind : (getBasket shop.baskets u).find?
          (fun it => it.object_id = p.id) with _ | row
      · rw [hfind]
        refine ⟨⟨p.id, qty, p.price_gbp⟩, ?_, ?_, rfl⟩
        · rw [find?_append_none _ _ _ hfind]
          simp [List.find?]
        · show qty = durableQty shop u p.id + qty
          omega
      · rw [hfind]
        have hrq : durableQty shop u p.id = row.quantity := by
          simp [durableQty, hfind]
        refine ⟨_, find?_update_row _ _ _ _ _ hfind, ?_, rfl⟩
        show row.quantity + qty = durableQty shop u p.id + qty
        omega
  · by_cases hover : sessionQty sess w + durableQty shop u p.id + qty
        > p.stock
    · exfalso
      simp only [add_to_basket, if_neg hnq, hp] at hok
      rw [if_neg hC1] at hok
      rw [if_pos hover] at hok
      exact absurd hok (by simp)
    · simp only [add_to_basket, if_neg hnq, hp]
      rw [if_neg hC1]
      rw [if_neg hover]
      constructor
      · rw [lookupKey_setKey_self, if_neg hC1]
      · rw [getBasket_setBasket_self]
        rcases hfind : (getBasket shop.baskets u).find?
            (fun it => it.object_id = p.id) with _ | row
        · rw [hfind]
          have hdq0 : durableQty shop u p.id = 0 := by
            simp [durableQty, hfind]
          refine ⟨⟨p.id, qty, p.price_gbp⟩, ?_, ?_, rfl⟩
          · rw [find?_append_none _ _ _ hfind]
            simp [List.find?]
          · show qty = durableQty shop u p.id + qty
            omega
        · rw [hfind]
          have hrq : durableQty shop u p.id = row.quantity := by
            simp [durableQty, hfind]
          refine ⟨_, find?_update_row _ _ _ _ _ hfind, ?_, rfl⟩
          show row.quantity + qty = durableQty shop u p.id + qty
          omega

/-- C10 amended, witness: the durable store of the stale-session
scenario gains a row of exactly the requested 4 units at the current
catalog price. -/
theorem C10_dual_write_witness :
    ∃ row,
      (getBasket (add_to_basket wShopStale (some 7) wSessionStale 24
          WUnit.kg 4).2.1.baskets 7).find?
        (fun it => it.object_id = wKb.id) = some row
      ∧ row.quantity = durableQty wShopStale 7 wKb.id + 4
      ∧ row.price_snapshot = wKb.price_gbp :=
  (C10_dual_write wShopStale 7 wSessionStale 24 WUnit.kg wKb 4
    (by decide) (by decide) rfl).2

theorem find?_append_some {α : Type} (l1 l2 : List α) (p : α → Bool) (r : α)
    (h : l1.find? p = some r) : (l1 ++ l2).find? p = some r := by
  induction l1 with
  | nil => simp at h
  | cons x t ih =>
    by_cases hx : p x
    · simp only [List.find?, hx] at h ⊢
      exact h
    · simp only [List.find?, hx] at h
      simp only [List.cons_append, List.find?, hx]
      exact ih h

theorem find?_update_other (items : List BasketItem) (pid qid : Nat)
    (qty price : Int) (hne : qid ≠ pid) :
    (items.map (fun it =>
        if it.object_id = qid then
          { it with quantity := it.quantity + qty, price_snapshot := price }
        else it)).find? (fun it => it.object_id = pid)
      = items.find? (fun it => it.object_id = pid) := by
  induction items with
  | nil => simp
  | cons x t ih =>
    by_cases hq : x.object_id = qid
    · have hxp : ¬ x.object_id = pid := by rw [hq]; exact hne
      simp only [List.map_cons, List.find?, if_pos hq]
      simpa [List.find?, hxp] using ih
    · by_cases hxp : x.object_id = pid
      · rw [List.map_cons, if_neg hq]
        simp only [List.find?, hxp, decide_True]
      · simp only [List.map_cons, List.find?, if_neg hq, hxp, decide_False]
        exact ih

theorem mergeEntry_find?_other (cat : List Kettlebell)
    (acc : List BasketItem) (kv : Nat × SessEntry) (pid : Nat)
    (h : ∀ q, cat.find? (fun k => k.weight = kv.1) = some q →
      ¬ kv.2.quantity ≤ 0 → q.id ≠ pid) :
    (mergeEntry cat acc kv).find? (fun it => it.object_id = pid)
      = acc.find? (fun it => it.object_id = pid) := by
  unfold mergeEntry
  rcases hq : cat.find? (fun k => k.weight = kv.1) with _ | q
  · simp only [hq]
  · by_cases hle : kv.2.quantity ≤ 0
    · simp [hq, hle]
    · have hne : q.id ≠ pid := h q hq hle
      simp only [hq, if_neg hle]
      rcases hf : acc.find? (fun it => it.object_id = q.id) with _ | r
      · simp only [hf]
        rcases hfp : acc.find? (fun it => it.object_id = pid) with _ | rp
        · rw [find?_append_none _ _ _ hfp]
          simp [List.find?, hne, hfp]
        · rw [find?_append_some _ _ _ _ hfp, hfp]
      · simp only [hf]
        exact find?_update_other acc pid q.id kv.2.quantity q.price_gbp hne

theorem foldl_mergeEntry_other (cat : List Kettlebell) (pid : Nat) :
    ∀ (entries : List (Nat × SessEntry)) (acc : List BasketItem),
    (∀ kv ∈ entries, ∀ q, cat.find? (fun k => k.weight = kv.1) = some q →
      ¬ kv.2.quantity ≤ 0 → q.id ≠ pid) →
    (entries.foldl (mergeEntry cat) acc).find? (fun it => it.object_id = pid)
      = acc.find? (fun it => it.object_id = pid) := by
  intro entries
  induction entries with
  | nil => intro acc _; rfl
  | cons kv rest ih =>
    intro acc h
    have h1 := mergeEntry_find?_other cat acc kv pid
      (h kv (List.mem_cons_self kv rest))
    have h2 := ih (mergeEntry cat acc kv)
      (fun kv' hm => h kv' (List.mem_cons_of_mem kv hm))
    simp only [List.foldl_cons]
    rw [h2, h1]

theorem mergeEntry_find?_touch (cat : List Kettlebell)
    (acc : List BasketItem) (w : Nat) (e : SessEntry) (p : Kettlebell)
    (hres : cat.find? (fun k => k.weight = w) = some p)
    (hq : 1 ≤ e.quantity) :
    ∃ row, (mergeEntry cat acc (w, e)).find?
        (fun it => it.object_id = p.id) = some row
      ∧ row.quantity = ((acc.find? (fun it => it.object_id = p.id)).map
          (fun it => it.quantity)).getD 0 + e.quantity
      ∧ row.price_snapshot = p.price_gbp := by
  have hle : ¬ e.quantity ≤ 0 := by omega
  unfold mergeEntry
  simp only [hres, if_neg hle]
  rcases hf : acc.find? (fun it => it.object_id = p.id) with _ | r
  · simp only [hf]
    refine ⟨⟨p.id, e.quantity, p.price_gbp⟩, ?_, by simp [hf], rfl⟩
    rw [find?_append_none _ _ _ hf]
    simp [List.find?]
  · simp only [hf]
    refine ⟨_, find?_update_row _ _ _ _ _ hf, ?_, rfl⟩
    show r.quantity + e.quantity = _
    simp [hf]

theorem foldl_mergeEntry_adds (cat : List Kettlebell) (p : Kettlebell)
    (w : Nat) (e : SessEntry)
    (hres : cat.find? (fun k => k.weight = w) = some p)
    (hq : 1 ≤ e.quantity) :
    ∀ (entries : List (Nat × SessEntry)) (acc : List BasketItem),
    (w, e) ∈ entries →
    (entries.map Prod.fst).Nodup →
    (∀ kv ∈ entries, ∀ q, cat.find? (fun k => k.weight = kv.1) = some q →
      ¬ kv.2.quantity ≤ 0 → q.id = p.id → kv.1 = w) →
    ∃ row, (entries.foldl (mergeEntry cat) acc).find?
        (fun it => it.object_id = p.id) = some row
      ∧ row.quantity = ((acc.find? (fun it => it.object_id = p.id)).map
          (fun it => it.quantity)).getD 0 + e.quantity
      ∧ row.price_snapshot = p.price_gbp := by
  intro entries
  induction entries with
  | nil => intro acc hmem; simp at hmem
  | cons kv rest ih =>
    intro acc hmem hnodup htouch
    rcases List.mem_cons.mp hmem with heq | hmem'
    · subst heq
      obtain ⟨row, hrow, hqty, hprice⟩ :=
        mergeEntry_find?_touch cat acc w e p hres hq
      have hrest : ∀ kv' ∈ rest, ∀ q,
          cat.find? (fun k => k.weight = kv'.1) = some q →
          ¬ kv'.2.quantity ≤ 0 → q.id ≠ p.id := by
        intro kv' hm q hq' hle hid
        have hkey := htouch kv' (List.mem_cons_of_mem _ hm) q hq' hle hid
        have hw : w ∉ rest.map Prod.fst := by
          have h := hnodup
          simp only [List.map_cons, List.nodup_cons] at h
          exact h.1
        exact hw (hkey ▸ List.mem_map_of_mem Prod.fst hm)
      simp only [List.foldl_cons]
      rw [foldl_mergeEntry_other cat p.id rest (mergeEntry cat acc (w, e))
        hrest]
      exact ⟨row, hrow, hqty, hprice⟩
    · have hkne : kv.1 ≠ w := by
        intro hkw
        have hw : kv.1 ∉ rest.map Prod.fst := by
          have h := hnodup
          simp only [List.map_cons, List.nodup_cons] at h
          exact h.1
        exact hw (hkw ▸ List.mem_map_of_mem Prod.fst hmem')
      have hnotouch : ∀ q, cat.find? (fun k => k.weight = kv.1) = some q →
          ¬ kv.2.quantity ≤ 0 → q.id ≠ p.id := by
        intro q hq' hle hid
        exact hkne (htouch kv (List.mem_cons_self kv rest) q hq' hle hid)
      have hpres := mergeEntry_find?_other cat acc kv p.id hnotouch
      simp only [List.foldl_cons]
      obtain ⟨row, hrow, hqty, hprice⟩ := ih (mergeEntry cat acc kv) hmem'
        (by simpa using hnodup.of_cons)
        (fun kv' hm => htouch kv' (List.mem_cons_of_mem _ hm))
      exact ⟨row, hrow, by rw [hpres] at hqty; exact hqty, hprice⟩

/-- C7: merge-on-login adds quantities rather than overwriting: for a
session entry whose product resolves, the durable row for that product
afterwards carries the prior durable quantity plus the session quantity,
with its price snapshot refreshed to the current catalog price. -/
theorem C7_merge_adds (shop : Shop) (u : Nat) (sess : Session)
    (w : Nat) (e : SessEntry) (p : Kettlebell)
    (hmem : (w, e) ∈ sess.basket)
    (hkeys : (sess.basket.map Prod.fst).Nodup)
    (hids : (shop.catalog.map (fun k => k.id)).Nodup)
    (hres : shop.catalog.find? (fun k => k.weight = w) = some p)
    (hq : 1 ≤ e.quantity) :
    ∃ row, (getBasket (merge_session_basket shop u sess).1.baskets u).find?
        (fun it => it.object_id = p.id) = some row
      ∧ row.quantity = durableQty shop u p.id + e.quantity
      ∧ row.price_snapshot = p.price_gbp := by
  have hne : sess.basket ≠ [] := by
    intro h
    rw [h] at hmem
    simp at hmem
  have htouch : ∀ kv ∈ sess.basket, ∀ q,
      shop.catalog.find? (fun k => k.weight = kv.1) = some q →
      ¬ kv.2.quantity ≤ 0 → q.id = p.id → kv.1 = w := by
    intro kv _ q hq' _ hid
    have hqmem : q ∈ shop.catalog := List.mem_of_find?_eq_some hq'
    have hpmem : p ∈ shop.catalog := List.mem_of_find?_eq_some hres
    have hqp : q = p := List.inj_on_of_nodup_map hids hqmem hpmem hid
    have h1 : q.weight = kv.1 := by
      have h := List.find?_some hq'
      simpa using h
    have h2 : p.weight = w := by
      have h := List.find?_some hres
      simpa using h
    rw [← h1, hqp, h2]
  simp only [merge_session_basket, if_neg hne]
  rw [getBasket_setBasket_self]
  have h := foldl_mergeEntry_adds shop.catalog p w e hres hq sess.basket
    (getBasket shop.baskets u) hmem hkeys htouch
  simpa [durableQty] using h

/-- C7 witness: the session entry of 2 units of the 16 kg product merged
into a durable basket already holding 1 unit yields a durable row of
quantity 3 (not 2) at the refreshed catalog price. -/
theorem C7_merge_adds_witness :
    ∃ row, (getBasket (merge_session_basket wShopMerge 9
        wSessionBasket).1.baskets 9).find?
      (fun it => it.object_id = 3) = some row
      ∧ row.quantity = 3 ∧ row.price_snapshot = 20 := by
  obtain ⟨row, h1, h2, h3⟩ := C7_merge_adds wShopMerge 9 wSessionBasket 16
    ⟨2, 20⟩ ⟨3, 16, WUnit.kg, 5, 20⟩ (by decide) (by decide) (by decide)
    (by decide) (by decide)
  exact ⟨row, h1, by rw [h2]; decide, h3⟩

theorem adjustStock_find? (cat : List Kettlebell) (pid : Nat) (q : Int)
    (p : Kettlebell → Bool)
    (hp : ∀ k, p (if k.id = pid then
      { k with stock := max 0 (k.stock - q) } else k) = p k) :
    (adjustStock cat pid q).find? p
      = (cat.find? p).map (fun k =>
          if k.id = pid then { k with stock := max 0 (k.stock - q) }
          else k) := by
  have hcomp : (p ∘ (fun k =>
      if k.id = pid then { k with stock := max 0 (k.stock - q) } else k))
        = p := by
    funext k
    simp only [Function.comp]
    exact hp k
  unfold adjustStock
  rw [List.find?_map, hcomp]

theorem resolveLineItem_adjustStock (cat : List Kettlebell) (pid : Nat)
    (q : Int) (li : OrderLineItem) :
    resolveLineItem (adjustStock cat pid q) li
      = (resolveLineItem cat li).map (fun k =>
          if k.id = pid then { k with stock := max 0 (k.stock - q) }
          else k) := by
  have h1 : ∀ (pid' : Nat),
      (adjustStock cat pid q).find? (fun k => k.id = pid')
        = (cat.find? (fun k => k.id = pid')).map (fun k =>
            if k.id = pid then { k with stock := max 0 (k.stock - q) }
            else k) := by
    intro pid'
    apply adjustStock_find?
    intro k
    by_cases hk : k.id = pid <;> simp [hk]
  have h2 : ∀ (wu : Nat × WUnit),
      (adjustStock cat pid q).find?
          (fun k => k.weight = wu.1 ∧ k.weight_unit = wu.2)
        = (cat.find? (fun k => k.weight = wu.1 ∧ k.weight_unit = wu.2)).map
            (fun k =>
              if k.id = pid then { k with stock := max 0 (k.stock - q) }
              else k) := by
    intro wu
    apply adjustStock_find?
    intro k
    by_cases hk : k.id = pid <;> simp [hk]
  unfold resolveLineItem
  rcases hprod : li.product with _ | pid'
  · rcases hwu : li.name_weight_unit with _ | wu
    · simp [hprod, hwu]
    · simpa [hprod, hwu] using h2 wu
  · rcases hfk : cat.find? (fun k => k.id = pid') with _ | kb
    · rcases hwu : li.name_weight_unit with _ | wu
      · simp [hprod, hfk, h1 pid', hwu]
      · simpa [hprod, hfk, h1 pid', hwu] using h2 wu
    · simp [hprod, hfk, h1 pid']

theorem resolveId_applyLineItem (cat : List Kettlebell)
    (li0 li : OrderLineItem) :
    (resolveLineItem (applyLineItem cat li0) li).map (fun k => k.id)
      = (resolveLineItem cat li).map (fun k => k.id) := by
  unfold applyLineItem
  by_cases hq : li0.quantity ≤ 0
  · simp [hq]
  · simp only [if_neg hq]
    rcases hres : resolveLineItem cat li0 with _ | kb
    · rfl
    · rw [resolveLineItem_adjustStock]
      rcases resolveLineItem cat li with _ | k
      · rfl
      · by_cases hk : k.id = kb.id <;> simp [hk]

theorem stockOf_adjustStock_self (cat : List Kettlebell) (pid : Nat)
    (q : Int) :
    stockOf (adjustStock cat pid q) pid
      = (stockOf cat pid).map (fun s => max 0 (s - q)) := by
  unfold stockOf
  rw [adjustStock_find? cat pid q _ (fun k => by
    by_cases hk : k.id = pid <;> simp [hk])]
  rcases hf : cat.find? (fun k => k.id = pid) with _ | kb
  · rw [hf]
    rfl
  · have hid : kb.id = pid := by simpa using List.find?_some hf
    rw [hf]
    simp [hid]

theorem stockOf_adjustStock_other (cat : List Kettlebell) (pid pid' : Nat)
    (q : Int) (hne : pid' ≠ pid) :
    stockOf (adjustStock cat pid q) pid' = stockOf cat pid' := by
  unfold stockOf
  rw [adjustStock_find? cat pid q _ (fun k => by
    by_cases hk : k.id = pid <;> simp [hk])]
  rcases hf : cat.find? (fun k => k.id = pid') with _ | kb
  · rw [hf]
    rfl
  · have hid : kb.id = pid' := by simpa using List.find?_some hf
    have hnid : ¬ kb.id = pid := by rw [hid]; exact hne
    rw [hf]
    simp [hnid]

theorem stockOf_applyLineItem_other (cat : List Kettlebell)
    (li : OrderLineItem) (pid : Nat)
    (h : (resolveLineItem cat li).map (fun k => k.id) ≠ some pid) :
    stockOf (applyLineItem cat li) pid = stockOf cat pid := by
  unfold applyLineItem
  by_cases hq : li.quantity ≤ 0
  · simp [hq]
  · simp only [if_neg hq]
    rcases hres : resolveLineItem cat li with _ | kb
    · rfl
    · rw [hres] at h
      simp only [Option.map_some'] at h
      exact stockOf_adjustStock_other cat kb.id pid li.quantity
        (fun he => h (by rw [he]))

theorem foldl_applyLineItem_other (pid : Nat) :
    ∀ (items : List OrderLineItem) (cat : List Kettlebell),
    (∀ li ∈ items, (resolveLineItem cat li).map (fun k => k.id) ≠ some pid) →
    stockOf (items.foldl applyLineItem cat) pid = stockOf cat pid := by
  intro items
  induction items with
  | nil => intro cat _; rfl
  | cons li0 rest ih =>
    intro cat h
    simp only [List.foldl_cons]
    have h0 := h li0 (List.mem_cons_self li0 rest)
    have hrest : ∀ li ∈ rest,
        (resolveLineItem (applyLineItem cat li0) li).map (fun k => k.id)
          ≠ some pid := by
      intro li hm
      rw [resolveId_applyLineItem]
      exact h li (List.mem_cons_of_mem _ hm)
    rw [ih (applyLineItem cat li0) hrest]
    exact stockOf_applyLineItem_other cat li0 pid h0

theorem foldl_applyLineItem_touched :
    ∀ (items : List OrderLineItem) (cat : List Kettlebell)
      (li : OrderLineItem) (kb : Kettlebell),
    li ∈ items → 0 < li.quantity →
    resolveLineItem cat li = some kb →
    (items.filterMap
      (fun x => (resolveLineItem cat x).map (fun k => k.id))).Nodup →
    stockOf (items.foldl applyLineItem cat) kb.id
      = (stockOf cat kb.id).map (fun s => max 0 (s - li.quantity)) := by
  intro items
  induction items with
  | nil => intro cat li kb hmem; simp at hmem
  | cons li0 rest ih =>
    intro cat li kb hmem hqty hres hnodup
    rcases List.mem_cons.mp hmem with heq | hmem'
    · subst heq
      have happly : applyLineItem cat li = adjustStock cat kb.id li.quantity := by
        unfold applyLineItem
        rw [if_neg (by omega : ¬ li.quantity ≤ 0), hres]
      have hrest : ∀ lj ∈ rest,
          (resolveLineItem (applyLineItem cat li) lj).map (fun k => k.id)
            ≠ some kb.id := by
        intro lj hm
        rw [resolveId_applyLineItem]
        intro hcontra
        have hin : kb.id ∈ rest.filterMap
            (fun x => (resolveLineItem cat x).map (fun k => k.id)) :=
          List.mem_filterMap.mpr ⟨lj, hm, hcontra⟩
        have hhead : (resolveLineItem cat li).map (fun k => k.id)
            = some kb.id := by rw [hres]; rfl
        rw [List.filterMap_cons, hhead] at hnodup
        exact (List.nodup_cons.mp hnodup).1 hin
      simp only [List.foldl_cons]
      rw [foldl_applyLineItem_other kb.id rest (applyLineItem cat li) hrest]
      rw [happly]
      exact stockOf_adjustStock_self cat kb.id li.quantity
    · -- li is in the tail
      have htail : (rest.filterMap
          (fun x => (resolveLineItem cat x).map (fun k => k.id))).Nodup := by
        rw [List.filterMap_cons] at hnodup
        rcases hh : (resolveLineItem cat li0).map (fun k => k.id) with _ | i0
        · rw [hh] at hnodup
          exact hnodup
        · rw [hh] at hnodup
          exact (List.nodup_cons.mp hnodup).2
      simp only [List.foldl_cons]
      by_cases hq0 : li0.quantity ≤ 0
      · have : applyLineItem cat li0 = cat := by
          unfold applyLineItem
          rw [if_pos hq0]
        rw [this]
        exact ih cat li kb hmem' hqty hres htail
      · rcases hres0 : resolveLineItem cat li0 with _ | kb0
        · have : applyLineItem cat li0 = cat := by
            unfold applyLineItem
            rw [if_neg hq0, hres0]
          rw [this]
          exact ih cat li kb hmem' hqty hres htail
        · -- head decrements kb0, distinct from kb
          have happly : applyLineItem cat li0
              = adjustStock cat kb0.id li0.quantity := by
            unfold applyLineItem
            rw [if_neg hq0, hres0]
          have hne : kb.id ≠ kb0.id := by
            intro he
            have hin : kb.id ∈ rest.filterMap
                (fun x => (resolveLineItem cat x).map (fun k => k.id)) :=
              List.mem_filterMap.mpr ⟨li, hmem', by rw [hres]; rfl⟩
            have hhead : (resolveLineItem cat li0).map (fun k => k.id)
                = some kb0.id := by rw [hres0]; rfl
            rw [List.filterMap_cons, hhead] at hnodup
            exact (List.nodup_cons.mp hnodup).1 (he ▸ hin)
          have hres1 : resolveLineItem (applyLineItem cat li0) li
              = some kb := by
            rw [happly, resolveLineItem_adjustStock, hres]
            simp only [Option.map_some']
            rw [if_neg (by exact hne : ¬ kb.id = kb0.id)]
          have hnodup1 : (rest.filterMap
              (fun x => (resolveLineItem (applyLineItem cat li0) x).map
                (fun k => k.id))).Nodup := by
            have hcongr : rest.filterMap
                (fun x => (resolveLineItem (applyLineItem cat li0) x).map
                  (fun k => k.id))
                = rest.filterMap
                  (fun x => (resolveLineItem cat x).map (fun k => k.id)) :=
              List.filterMap_congr (fun x _ => resolveId_applyLineItem cat li0 x)
            rw [hcongr]
            exact htail
          rw [ih (applyLineItem cat li0) li kb hmem' hqty hres1 hnodup1]
          rw [happly]
          rw [stockOf_adjustStock_other cat kb0.id kb.id li0.quantity hne]

theorem apply_snd_order_number (cat : List Kettlebell) (o : Order) :
    ((apply_order_stock_adjustment cat o).2).order_number
      = o.order_number := by
  by_cases h : o.stock_adjusted <;> simp [apply_order_stock_adjustment, h]

theorem apply_snd_adjusted (cat : List Kettlebell) (o : Order) :
    ((apply_order_stock_adjustment cat o).2).stock_adjusted = true := by
  by_cases h : o.stock_adjusted <;> simp [apply_order_stock_adjustment, h]

theorem apply_of_adjusted (cat : List Kettlebell) (o : Order)
    (h : o.stock_adjusted = true) :
    apply_order_stock_adjustment cat o = (cat, o) := by
  simp [apply_order_stock_adjustment, h]

theorem findOrder_saveOrder_other (orders : List Order) (o' : Order)
    (m : Nat) (hne : o'.order_number ≠ m) :
    findOrder (saveOrder orders o') m = findOrder orders m := by
  induction orders with
  | nil => rfl
  | cons x t ih =>
    have hsave : saveOrder (x :: t) o'
        = (if x.order_number = o'.order_number then o' else x)
          :: saveOrder t o' := by
      simp [saveOrder]
    rw [hsave]
    by_cases hxo : x.order_number = o'.order_number
    · rw [if_pos hxo]
      have h2 : ¬ x.order_number = m := by rw [hxo]; exact hne
      simp only [findOrder, List.find?, hne, h2, decide_False]
      exact ih
    · rw [if_neg hxo]
      by_cases hx : x.order_number = m
      · simp only [findOrder, List.find?, hx, decide_True]
      · simp only [findOrder, List.find?, hx, decide_False]
        exact ih

theorem confirm_payment_none (shop : Shop) (n : Nat)
    (h : findOrder shop.orders n = none) : confirm_payment shop n = shop := by
  simp [confirm_payment, h]

theorem confirm_payment_eq (shop : Shop) (n : Nat) (order : Order)
    (h : findOrder shop.orders n = some order) :
    confirm_payment shop n
      = { shop with
          catalog := (apply_order_stock_adjustment shop.catalog order).1,
          orders := saveOrder shop.orders
            { (apply_order_stock_adjustment shop.catalog order).2 with
              paid := true, status := OrderStatus.PAID },
          baskets :=
            match order.profile with
            | some u => setBasket shop.baskets u []
            | none => shop.baskets } := by
  unfold confirm_payment
  rw [h]

/-- C1: payment confirmation is idempotent: confirming a second time
leaves the catalog (every product's stock) exactly as after the first
confirmation; one confirmation sets the order's `stock_adjusted` flag,
and a confirmation never clears an already-set flag of any order, so the
flag transitions false to true at most once. -/
theorem C1_confirm_idempotent (shop : Shop) (n : Nat) :
    (confirm_payment (confirm_payment shop n) n).catalog
      = (confirm_payment shop n).catalog
    ∧ (∀ o, findOrder shop.orders n = some o →
        ∃ o', findOrder (confirm_payment shop n).orders n = some o'
          ∧ o'.stock_adjusted = true)
    ∧ (∀ m o, findOrder shop.orders m = some o → o.stock_adjusted = true →
        ∃ o', findOrder (confirm_payment shop n).orders m = some o'
          ∧ o'.stock_adjusted = true) := by
  rcases hf : findOrder shop.orders n with _ | o
  · have hc := confirm_payment_none shop n hf
    refine ⟨by rw [hc, hc], ?_, ?_⟩
    · intro o ho
      simp at ho
    · intro m o hm hfl
      rw [hc]
      exact ⟨o, hm, hfl⟩
  · have hn : o.order_number = n := by simpa using List.find?_some hf
    have heq := confirm_payment_eq shop n o hf
    have hnum : ({ (apply_order_stock_adjustment shop.catalog o).2 with
        paid := true, status := OrderStatus.PAID } : Order).order_number
          = o.order_number := apply_snd_order_number shop.catalog o
    have hfl2 : ({ (apply_order_stock_adjustment shop.catalog o).2 with
        paid := true, status := OrderStatus.PAID } : Order).stock_adjusted
          = true := apply_snd_adjusted shop.catalog o
    have hord : (confirm_payment shop n).orders
        = saveOrder shop.orders
            { (apply_order_stock_adjustment shop.catalog o).2 with
              paid := true, status := OrderStatus.PAID } := by
      rw [heq]
    have hfound : findOrder (confirm_payment shop n).orders n
        = some { (apply_order_stock_adjustment shop.catalog o).2 with
            paid := true, status := OrderStatus.PAID } := by
      rw [hord]
      exact findOrder_saveOrder shop.orders o _ n hf hnum
    refine ⟨?_, ?_, ?_⟩
    · have heq2 := confirm_payment_eq (confirm_payment shop n) n _ hfound
      have hcat2 : (confirm_payment (confirm_payment shop n) n).catalog
          = (apply_order_stock_adjustment (confirm_payment shop n).catalog
              { (apply_order_stock_adjustment shop.catalog o).2 with
                paid := true, status := OrderStatus.PAID }).1 := by
        rw [heq2]
      rw [hcat2, apply_of_adjusted _ _ hfl2]
    · intro o0 _
      exact ⟨_, hfound, hfl2⟩
    · intro m o0 hm hfl0
      by_cases hmn : m = n
      · subst hmn
        exact ⟨_, hfound, hfl2⟩
      · refine ⟨o0, ?_, hfl0⟩
        rw [hord]
        rw [findOrder_saveOrder_other shop.orders _ m
          (by rw [hnum, hn]; exact fun hc => hmn hc.symm)]
        exact hm

/-- C2: confirming payment of an order that is not yet stock-adjusted
marks it paid, PAID and stock-adjusted, decrements each resolved line
item's product stock by that line's quantity clamped at zero, and leaves
the stock of products not referenced by any line item unchanged.  The
whole update is the single state transition of `confirm_payment`, the
embedding of the one atomic transaction. -/
theorem C2_confirm_stock_decrement (shop : Shop) (n : Nat) (order : Order)
    (hfind : findOrder shop.orders n = some order)
    (hflag : order.stock_adjusted = false)
    (hnodup : (order.items.filterMap
      (fun x => (resolveLineItem shop.catalog x).map (fun k => k.id))).Nodup) :
    (∃ o', findOrder (confirm_payment shop n).orders n = some o'
      ∧ o'.paid = true ∧ o'.status = OrderStatus.PAID
      ∧ o'.stock_adjusted = true ∧ o'.items = order.items)
    ∧ (∀ li ∈ order.items, 0 < li.quantity →
        ∀ kb, resolveLineItem shop.catalog li = some kb →
          stockOf (confirm_payment shop n).catalog kb.id
            = (stockOf shop.catalog kb.id).map
                (fun s => max 0 (s - li.quantity)))
    ∧ (∀ pid, (∀ li ∈ order.items,
          (resolveLineItem shop.catalog li).map (fun k => k.id)
            ≠ some pid) →
        stockOf (confirm_payment shop n).catalog pid
          = stockOf shop.catalog pid) := by
  have happly : apply_order_stock_adjustment shop.catalog order
      = (order.items.foldl applyLineItem shop.catalog,
         { order with stock_adjusted := true }) := by
    simp [apply_order_stock_adjustment, hflag]
  have heq := confirm_payment_eq shop n order hfind
  have hcat : (confirm_payment shop n).catalog
      = order.items.foldl applyLineItem shop.catalog := by
    rw [heq, happly]
  have hord : (confirm_payment shop n).orders
      = saveOrder shop.orders
          { (apply_order_stock_adjustment shop.catalog order).2 with
            paid := true, status := OrderStatus.PAID } := by
    rw [heq]
  refine ⟨?_, ?_, ?_⟩
  · refine ⟨{ (apply_order_stock_adjustment shop.catalog order).2 with
        paid := true, status := OrderStatus.PAID }, ?_, ?_, ?_, ?_, ?_⟩
    · rw [hord]
      exact findOrder_saveOrder shop.orders order _ n hfind
        (apply_snd_order_number shop.catalog order)
    · rfl
    · rfl
    · exact apply_snd_adjusted shop.catalog order
    · rw [happly]
  · intro li hmem hqty kb hres
    rw [hcat]
    exact foldl_applyLineItem_touched order.items shop.catalog li kb hmem
      hqty hres hnodup
  · intro pid hnone
    rw [hcat]
    exact foldl_applyLineItem_other pid order.items shop.catalog hnone

/-- C1 witness: confirming the sample order twice leaves the catalog of
the once-confirmed state unchanged, and the once-confirmed order carries
the `stock_adjusted` flag. -/
theorem C1_confirm_idempotent_witness :
    (confirm_payment (confirm_payment wShop 100) 100).catalog
      = (confirm_payment wShop 100).catalog
    ∧ (∃ o', findOrder (confirm_payment wShop 100).orders 100 = some o'
        ∧ o'.stock_adjusted = true) :=
  ⟨(C1_confirm_idempotent wShop 100).1,
   (C1_confirm_idempotent wShop 100).2.1 wOrder rfl⟩

/-- C2 witness: confirming the sample order (one line of quantity 2
against stock 5) yields a PAID, stock-adjusted order and stock 3. -/
theorem C2_confirm_stock_decrement_witness :
    (∃ o', findOrder (confirm_payment wShop 100).orders 100 = some o'
      ∧ o'.paid = true ∧ o'.status = OrderStatus.PAID
      ∧ o'.stock_adjusted = true ∧ o'.items = wOrder.items)
    ∧ stockOf (confirm_payment wShop 100).catalog wKb.id = some 3 := by
  have h := C2_confirm_stock_decrement wShop 100 wOrder rfl rfl (by decide)
  refine ⟨h.1, ?_⟩
  have h2 := h.2.1 ⟨none, some (24, WUnit.kg), 2, 70⟩ (by decide) (by decide)
    wKb (by decide)
  rw [h2]
  decide

theorem checkout_fresh_auth (shop : Shop) (u : Nat) (sess : Session)
    (form : ContactInfo)
    (hfresh : checkoutFindExisting shop (some u) sess = none) :
    checkout shop (some u) sess form
      = ({ shop with
            orders :=
              { order_number := shop.next_order_number, profile := some u,
                contact := form, original_basket := sess.basket,
                total := (buildAuthItems shop.catalog
                  (getBasket shop.baskets u)).2,
                status := .PENDING, paid := false, stock_adjusted := false,
                items := (buildAuthItems shop.catalog
                  (getBasket shop.baskets u)).1 } :: shop.orders,
            next_order_number := shop.next_order_number + 1 },
         { sess with pending_order_number := some shop.next_order_number },
         shop.next_order_number) := by
  unfold checkout
  rw [hfresh]

theorem checkout_fresh_anon (shop : Shop) (sess : Session)
    (form : ContactInfo)
    (hfresh : checkoutFindExisting shop none sess = none) :
    checkout shop none sess form
      = ({ shop with
            orders :=
              { order_number := shop.next_order_number, profile := none,
                contact := form, original_basket := sess.basket,
                total := (buildAnonItems shop.catalog sess.basket).2,
                status := .PENDING, paid := false, stock_adjusted := false,
                items := (buildAnonItems shop.catalog sess.basket).1 }
                :: shop.orders,
            next_order_number := shop.next_order_number + 1 },
         { sess with pending_order_number := some shop.next_order_number },
         shop.next_order_number) := by
  unfold checkout
  rw [hfresh]

theorem checkout_reuse_auth (shop : Shop) (u : Nat) (sess : Session)
    (form : ContactInfo) (o : Order)
    (hex : checkoutFindExisting shop (some u) sess = some o) :
    checkout shop (some u) sess form
      = ({ shop with
            orders := saveOrder shop.orders
              { order_number := o.order_number, profile := some u,
                contact := updateContactFields o.contact form,
                original_basket := sess.basket,
                total := (buildAuthItems shop.catalog
                  (getBasket shop.baskets u)).2,
                status := o.status, paid := o.paid,
                stock_adjusted := o.stock_adjusted,
                items := (buildAuthItems shop.catalog
                  (getBasket shop.baskets u)).1 } },
         { sess with pending_order_number := some o.order_number },
         o.order_number) := by
  unfold checkout
  rw [hex]

theorem checkout_reuse_anon (shop : Shop) (sess : Session)
    (form : ContactInfo) (o : Order)
    (hex : checkoutFindExisting shop none sess = some o) :
    checkout shop none sess form
      = ({ shop with
            orders := saveOrder shop.orders
              { order_number := o.order_number, profile := o.profile,
                contact := updateContactFields o.contact form,
                original_basket := sess.basket,
                total := (buildAnonItems shop.catalog sess.basket).2,
                status := o.status, paid := o.paid,
                stock_adjusted := o.stock_adjusted,
                items := (buildAnonItems shop.catalog sess.basket).1 } },
         { sess with pending_order_number := some o.order_number },
         o.order_number) := by
  unfold checkout
  rw [hex]


/-- C3: submitting checkout twice in succession with an unchanged basket
yields exactly one new Order and one fresh set of line items: the second
submission reuses the PENDING order created by the first (same order
number, order count unchanged), updates its contact fields from the
form, and replaces its previously generated line items with an identical
fresh snapshot. -/
theorem C3_checkout_idempotent (shop : Shop) (user : Option Nat) (sess : Session)
    (form : ContactInfo)
    (hfresh : checkoutFindExisting shop user sess = none) :
    (checkout shop user sess form).1.orders.length
      = shop.orders.length + 1
    ∧ (checkout (checkout shop user sess form).1 user
        (checkout shop user sess form).2.1 form).1.orders.length
      = (checkout shop user sess form).1.orders.length
    ∧ (checkout (checkout shop user sess form).1 user
        (checkout shop user sess form).2.1 form).2.2
      = (checkout shop user sess form).2.2
    ∧ (∃ o1 o2,
        findOrder (checkout shop user sess form).1.orders
          (checkout shop user sess form).2.2 = some o1
        ∧ findOrder (checkout (checkout shop user sess form).1 user
            (checkout shop user sess form).2.1 form).1.orders
          (checkout shop user sess form).2.2 = some o2
        ∧ o2.items = o1.items ∧ o2.total = o1.total
        ∧ o2.contact = updateContactFields o1.contact form
        ∧ o2.status = OrderStatus.PENDING) := by
  rcases user with _ | u
  · rw [checkout_fresh_anon shop sess form hfresh]
    have hex2 : checkoutFindExisting
        { shop with
          orders :=
            { order_number := shop.next_order_number, profile := none,
              contact := form, original_basket := sess.basket,
              total := (buildAnonItems shop.catalog sess.basket).2,
              status := .PENDING, paid := false, stock_adjusted := false,
              items := (buildAnonItems shop.catalog sess.basket).1 }
              :: shop.orders,
          next_order_number := shop.next_order_number + 1 }
        none
        { sess with pending_order_number := some shop.next_order_number }
        = some
          { order_number := shop.next_order_number, profile := none,
            contact := form, original_basket := sess.basket,
            total := (buildAnonItems shop.catalog sess.basket).2,
            status := .PENDING, paid := false, stock_adjusted := false,
            items := (buildAnonItems shop.catalog sess.basket).1 } := by
      simp [checkoutFindExisting, List.find?]
    rw [checkout_reuse_anon _ _ form _ hex2]
    have hfind1 : findOrder
        ({ order_number := shop.next_order_number, profile := none,
           contact := form, original_basket := sess.basket,
           total := (buildAnonItems shop.catalog sess.basket).2,
           status := .PENDING, paid := false, stock_adjusted := false,
           items := (buildAnonItems shop.catalog sess.basket).1 }
          :: shop.orders) shop.next_order_number
        = some
          { order_number := shop.next_order_number, profile := none,
            contact := form, original_basket := sess.basket,
            total := (buildAnonItems shop.catalog sess.basket).2,
            status := .PENDING, paid := false, stock_adjusted := false,
            items := (buildAnonItems shop.catalog sess.basket).1 } := by
      simp [findOrder, List.find?]
    refine ⟨by simp, by simp [saveOrder_length], rfl, ?_⟩
    refine ⟨_, _, hfind1, findOrder_saveOrder _ _ _ _ hfind1 rfl,
      rfl, rfl, rfl, rfl⟩
  · rw [checkout_fresh_auth shop u sess form hfresh]
    have hex2 : checkoutFindExisting
        { shop with
          orders :=
            { order_number := shop.next_order_number, profile := some u,
              contact := form, original_basket := sess.basket,
              total := (buildAuthItems shop.catalog
                (getBasket shop.baskets u)).2,
              status := .PENDING, paid := false, stock_adjusted := false,
              items := (buildAuthItems shop.catalog
                (getBasket shop.baskets u)).1 } :: shop.orders,
          next_order_number := shop.next_order_number + 1 }
        (some u)
        { sess with pending_order_number := some shop.next_order_number }
        = some
          { order_number := shop.next_order_number, profile := some u,
            contact := form, original_basket := sess.basket,
            total := (buildAuthItems shop.catalog
              (getBasket shop.baskets u)).2,
            status := .PENDING, paid := false, stock_adjusted := false,
            items := (buildAuthItems shop.catalog
              (getBasket shop.baskets u)).1 } := by
      simp [checkoutFindExisting, List.find?]
    rw [checkout_reuse_auth _ u _ form _ hex2]
    have hfind1 : findOrder
        ({ order_number := shop.next_order_number, profile := some u,
           contact := form, original_basket := sess.basket,
           total := (buildAuthItems shop.catalog
             (getBasket shop.baskets u)).2,
           status := .PENDING, paid := false, stock_adjusted := false,
           items := (buildAuthItems shop.catalog
             (getBasket shop.baskets u)).1 }
          :: shop.orders) shop.next_order_number
        = some
          { order_number := shop.next_order_number, profile := some u,
            contact := form, original_basket := sess.basket,
            total := (buildAuthItems shop.catalog
              (getBasket shop.baskets u)).2,
            status := .PENDING, paid := false, stock_adjusted := false,
            items := (buildAuthItems shop.catalog
              (getBasket shop.baskets u)).1 } := by
      simp [findOrder, List.find?]
    refine ⟨by simp, by simp [saveOrder_length], rfl, ?_⟩
    refine ⟨_, _, hfind1, findOrder_saveOrder _ _ _ _ hfind1 rfl,
      rfl, rfl, rfl, rfl⟩

theorem add_to_basket_catalog (shop : Shop) (user : Option Nat)
    (sess : Session) (w : Nat) (unit : WUnit) (q : Int) :
    ((add_to_basket shop user sess w unit q).2.1).catalog = shop.catalog := by
  unfold add_to_basket
  by_cases hq : q < 1
  · simp [hq]
  · simp only [if_neg hq]
    rcases user with _ | u <;>
      rcases hf : shop.catalog.find?
        (fun k => k.weight = w ∧ k.weight_unit = unit) with _ | p <;>
      simp only [hf] <;> split_ifs <;> rfl

theorem cancel_order_catalog (shop : Shop) (user : Option Nat)
    (sess : Session) (n : Nat) :
    ((cancel_order shop user sess n).2.1).catalog = shop.catalog := by
  unfold cancel_order
  rcases hf : findOrder shop.orders n with _ | o
  · rfl
  · simp only []
    split_ifs <;> rcases user with _ | u <;> simp

theorem mark_order_paid_catalog (shop : Shop) (user : Option Nat)
    (sess : Session) (n : Nat) :
    ((mark_order_paid shop user sess n).2.1).catalog = shop.catalog := by
  unfold mark_order_paid
  rcases hf : findOrder shop.orders n with _ | o
  · rfl
  · simp only []
    split_ifs <;> rcases user with _ | u <;> simp

theorem webhook_catalog (shop : Shop) (ev : StripeEvent) :
    ((webhook shop ev).2).catalog = shop.catalog := by
  unfold webhook
  split_ifs
  · rcases ev.order_number with _ | n
    · rfl
    · rcases hf : findOrder shop.orders n with _ | o
      · simp [hf]
      · rcases o.profile with _ | u <;> simp [hf]
  · rfl

theorem merge_session_basket_catalog (shop : Shop) (u : Nat)
    (sess : Session) :
    ((merge_session_basket shop u sess).1).catalog = shop.catalog := by
  unfold merge_session_basket
  split_ifs <;> rfl

theorem checkout_catalog (shop : Shop) (user : Option Nat) (sess : Session)
    (form : ContactInfo) :
    ((checkout shop user sess form).1).catalog = shop.catalog := by
  unfold checkout
  rcases hex : checkoutFindExisting shop user sess with _ | o <;>
    rcases user with _ | u <;> simp only [hex]

theorem stocksNonneg_adjustStock (cat : List Kettlebell) (pid : Nat)
    (q : Int) (h : stocksNonneg cat) :
    stocksNonneg (adjustStock cat pid q) := by
  intro k hk
  unfold adjustStock at hk
  obtain ⟨k0, hk0, hmap⟩ := List.mem_map.mp hk
  by_cases hid : k0.id = pid
  · rw [← hmap, if_pos hid]
    exact le_max_left 0 _
  · rw [← hmap, if_neg hid]
    exact h k0 hk0

theorem stocksNonneg_applyLineItem (cat : List Kettlebell)
    (li : OrderLineItem) (h : stocksNonneg cat) :
    stocksNonneg (applyLineItem cat li) := by
  unfold applyLineItem
  split_ifs
  · exact h
  · rcases hres : resolveLineItem cat li with _ | kb
    · exact h
    · exact stocksNonneg_adjustStock cat kb.id li.quantity h

theorem stocksNonneg_foldl (items : List OrderLineItem) :
    ∀ cat, stocksNonneg cat →
      stocksNonneg (items.foldl applyLineItem cat) := by
  induction items with
  | nil => intro cat h; exact h
  | cons li rest ih =>
    intro cat h
    simp only [List.foldl_cons]
    exact ih (applyLineItem cat li) (stocksNonneg_applyLineItem cat li h)

theorem stocksNonneg_confirm (shop : Shop) (n : Nat)
    (h : stocksNonneg shop.catalog) :
    stocksNonneg (confirm_payment shop n).catalog := by
  rcases hf : findOrder shop.orders n with _ | o
  · rw [confirm_payment_none shop n hf]
    exact h
  · have heq := confirm_payment_eq shop n o hf
    have : (confirm_payment shop n).catalog
        = (apply_order_stock_adjustment shop.catalog o).1 := by rw [heq]
    rw [this]
    unfold apply_order_stock_adjustment
    split_ifs
    · exact h
    · exact stocksNonneg_foldl o.items shop.catalog h

/-- C5: product stock is never negative after any operation of the
system: every embedded operation preserves non-negativity of all stocks,
and every operation other than payment confirmation leaves the catalog
(hence every stock count) entirely unchanged — the only stock mutation
is the payment-confirmation decrement, which is clamped at zero. -/
theorem C5_stock_invariant (s : Shop × Session) (op : Op)
    (h : stocksNonneg s.1.catalog) :
    stocksNonneg ((step s op).1).catalog
    ∧ ((∀ m, op ≠ Op.opConfirm m) → ((step s op).1).catalog = s.1.catalog) := by
  rcases op with ⟨user, w, unit, q⟩ | ⟨user, form⟩ | ⟨user, n⟩ | ⟨user, n⟩ | ev | u | n
  · have hc : ((step s (Op.opAdd user w unit q)).1).catalog = s.1.catalog :=
      add_to_basket_catalog s.1 user s.2 w unit q
    exact ⟨by rw [hc]; exact h, fun _ => hc⟩
  · have hc : ((step s (Op.opCheckout user form)).1).catalog = s.1.catalog :=
      checkout_catalog s.1 user s.2 form
    exact ⟨by rw [hc]; exact h, fun _ => hc⟩
  · have hc : ((step s (Op.opCancel user n)).1).catalog = s.1.catalog :=
      cancel_order_catalog s.1 user s.2 n
    exact ⟨by rw [hc]; exact h, fun _ => hc⟩
  · have hc : ((step s (Op.opMarkPaid user n)).1).catalog = s.1.catalog :=
      mark_order_paid_catalog s.1 user s.2 n
    exact ⟨by rw [hc]; exact h, fun _ => hc⟩
  · have hc : ((step s (Op.opWebhook ev)).1).catalog = s.1.catalog :=
      webhook_catalog s.1 ev
    exact ⟨by rw [hc]; exact h, fun _ => hc⟩
  · have hc : ((step s (Op.opMerge u)).1).catalog = s.1.catalog :=
      merge_session_basket_catalog s.1 u s.2
    exact ⟨by rw [hc]; exact h, fun _ => hc⟩
  · exact ⟨stocksNonneg_confirm s.1 n h, fun hall => absurd rfl (hall n)⟩

/-- C3 witness: user 9 with a durable basket of one row submits checkout
twice against an empty order table: one order after the first submit and
still one order after the second. -/
theorem C3_checkout_idempotent_witness :
    (checkout wShopCheckout (some 9) wSessionBasket wContact).1.orders.length
      = wShopCheckout.orders.length + 1
    ∧ (checkout (checkout wShopCheckout (some 9) wSessionBasket
          wContact).1 (some 9)
        (checkout wShopCheckout (some 9) wSessionBasket
          wContact).2.1 wContact).1.orders.length
      = (checkout wShopCheckout (some 9) wSessionBasket
          wContact).1.orders.length :=
  ⟨(C3_checkout_idempotent wShopCheckout (some 9) wSessionBasket wContact
      (by decide)).1,
   (C3_checkout_idempotent wShopCheckout (some 9) wSessionBasket wContact
      (by decide)).2.1⟩

/-- C5 witness: non-negative stocks stay non-negative across a concrete
payment confirmation. -/
theorem C5_stock_invariant_witness :
    stocksNonneg ((step (wShop, wSession) (Op.opConfirm 100)).1).catalog :=
  (C5_stock_invariant (wShop, wSession) (Op.opConfirm 100) (by decide)).1

end KettlebellHub
